import Mathlib

/-!
Verification of the task-execution core of the yoga-petz multi-account runner.

The Lean definitions below are shallow embeddings of the Python source:
`main.py` (batch orchestrator, invite pool, per-account processing),
`account.py` (transaction lifecycle) and `storage.py` (persistent store).
Asynchronous effects are modelled by explicit state passing; network and
randomness oracles are passed as function parameters; Python exceptions are
modelled by `Except String`.
-/

/-! ## Batch orchestrator: round-robin partition (`main.py`, `get_batches`) -/

/-- `appendAt bs k d` models the Python statement
`_batches[k].append(d)`: the element `d` is appended at the end of the
`k`-th inner list, all other inner lists are untouched. -/
def appendAt : List (List α) → Nat → α → List (List α)
  | [], _, _ => []
  | b :: bs, 0, d => (b ++ [d]) :: bs
  | b :: bs, k + 1, d => b :: appendAt bs k d

/-- Embedding of the round-robin loop of `get_batches` (`main.py` lines
279-282): starting from `THREADS_NUM` empty batches, the element at
position `i` of the data list is appended to batch `i % THREADS_NUM`.
(The `skip` / `want_only` pre-filtering of lines 274-278 happens before
this loop and only changes which list is partitioned.) -/
def get_batches (data : List α) (threads_num : Nat) : List (List α) :=
  data.enum.foldl (fun bs p => appendAt bs (p.1 % threads_num) p.2)
    (List.replicate threads_num [])

theorem length_appendAt (bs : List (List α)) (k : Nat) (d : α) :
    (appendAt bs k d).length = bs.length := by
  induction bs generalizing k with
  | nil => rfl
  | cons b bs ih =>
    cases k with
    | zero => rfl
    | succ k => simp [appendAt, ih]

theorem flatten_appendAt_perm (bs : List (List α)) (k : Nat) (d : α)
    (hk : k < bs.length) :
    (appendAt bs k d).flatten.Perm (bs.flatten ++ [d]) := by
  induction bs generalizing k with
  | nil => simp at hk
  | cons b bs ih =>
    cases k with
    | zero =>
      simp only [appendAt, List.flatten_cons, List.append_assoc]
      exact List.Perm.append_left b (List.perm_append_comm)
    | succ k =>
      simp only [appendAt, List.flatten_cons, List.append_assoc]
      exact List.Perm.append_left b (ih k (by simpa using hk))

theorem flatten_foldl_appendAt_perm (n : Nat) (hn : 0 < n)
    (ps : List (Nat × α)) (bs : List (List α)) (hbs : bs.length = n) :
    ((ps.foldl (fun bs p => appendAt bs (p.1 % n) p.2) bs).flatten).Perm
      (bs.flatten ++ ps.map Prod.snd) := by
  induction ps generalizing bs with
  | nil => simp
  | cons p ps ih =>
    have hlen : (appendAt bs (p.1 % n) p.2).length = n := by
      rw [length_appendAt]; exact hbs
    have hstep : (appendAt bs (p.1 % n) p.2).flatten.Perm (bs.flatten ++ [p.2]) :=
      flatten_appendAt_perm bs (p.1 % n) p.2 (by rw [hbs]; exact Nat.mod_lt _ hn)
    simp only [List.foldl_cons, List.map_cons]
    have h1 := ih _ hlen
    have h2 := hstep.append_right (ps.map Prod.snd)
    have h3 : (bs.flatten ++ [p.2]) ++ ps.map Prod.snd
        = bs.flatten ++ (p.2 :: ps.map Prod.snd) := by simp
    rw [h3] at h2
    exact h1.trans h2

theorem length_foldl_appendAt (n : Nat) (ps : List (Nat × α)) (bs : List (List α)) :
    (ps.foldl (fun bs p => appendAt bs (p.1 % n) p.2) bs).length = bs.length := by
  induction ps generalizing bs with
  | nil => rfl
  | cons p ps ih => simp [List.foldl_cons, ih, length_appendAt]

/-- C1: for every account list and every parallelism factor `n ≥ 1`,
`get_batches` produces exactly `n` batches, and the concatenation of the
batches is a permutation of the input list — every account appears exactly
once across all batches (a partition by round-robin index assignment, not
contiguous slicing). -/
theorem get_batches_partition (data : List α) (n : Nat) (hn : 1 ≤ n) :
    (get_batches data n).length = n ∧ (get_batches data n).flatten.Perm data := by
  constructor
  · rw [get_batches, length_foldl_appendAt, List.length_replicate]
  · have h := flatten_foldl_appendAt_perm n hn data.enum (List.replicate n [])
      (List.length_replicate n [])
    rw [get_batches]
    have hflat : (List.replicate n ([] : List α)).flatten = [] := by
      induction n with
      | zero => rfl
      | succ m ihm => simp [ihm]
    rw [hflat, List.nil_append, List.enum_map_snd] at h
    exact h

/-- Witness for C1 at a concrete input: five accounts, two batches. -/
theorem get_batches_partition_witness :
    (1 ≤ 2) ∧ ((get_batches [10, 20, 30, 40, 50] 2).length = 2 ∧
      (get_batches [10, 20, 30, 40, 50] 2).flatten.Perm [10, 20, 30, 40, 50]) :=
  ⟨by decide, get_batches_partition [10, 20, 30, 40, 50] 2 (by decide)⟩

/-! ## Batch worker and orchestrator (`main.py`, `process_batch` / `process`) -/

/-- Per-account outcome record (`models.ProcessResult`): whether an invite
code was consumed while processing the account. -/
structure ProcessResult where
  invite_used : Bool
deriving DecidableEq

/-- The error line logged by `process_batch` (`main.py` lines 223-227): the
message, replaced by a single space when empty, truncated to its first
line. -/
def firstErrorLine (s : String) : String :=
  if s = "" then " " else (s.splitOn "\n").headD s

/-- The loop body of `process_batch` (`main.py` lines 218-231): run the
per-account callable; on a returned result bump `used_invites` when
`result.invite_used` is set; on a raised exception log the account index
with the first line of the message and keep going. -/
def batchStep (f : Nat × α → Except String ProcessResult)
    (acc : Nat × List (Nat × String)) (d : Nat × α) : Nat × List (Nat × String) :=
  match f d with
  | .ok r => (if r.invite_used then acc.1 + 1 else acc.1, acc.2)
  | .error e => (acc.1, acc.2 ++ [(d.1, firstErrorLine e)])

/-- Embedding of `process_batch` (`main.py` lines 210-233) for one batch.
`f` models the awaited per-account callable (`async_func(d, storage,
invites)`): it returns either a `ProcessResult` or a raised exception
message. The batch is the list of enumerated account data `d`, whose first
component `d[0]` is the account index. The result is the returned
`used_invites` counter together with the list of `(account index, first
error line)` pairs logged by the `except` branch. The initial staggering
sleep and the intra-batch pacing sleeps are timing effects with no bearing
on the returned state. -/
def process_batch (f : Nat × α → Except String ProcessResult)
    (batch : List (Nat × α)) : Nat × List (Nat × String) :=
  batch.foldl (batchStep f) (0, [])

/-- Embedding of `process` (`main.py` lines 236-241): one task per batch,
gathered into the list of per-batch `used_invites` counts (which `main`
then sums). -/
def process (f : Nat × α → Except String ProcessResult)
    (batches : List (List (Nat × α))) : List Nat :=
  batches.map (fun b => (process_batch f b).1)

/-- The predicate picking out the accounts whose processing succeeded with
`invite_used` set. -/
def inviteUsedOn (f : Nat × α → Except String ProcessResult) (d : Nat × α) : Bool :=
  match f d with
  | .ok r => r.invite_used
  | .error _ => false

/-- The error-log entry produced for an account whose processing raised. -/
def errorLogOn (f : Nat × α → Except String ProcessResult) (d : Nat × α) :
    Option (Nat × String) :=
  match f d with
  | .ok _ => none
  | .error e => some (d.1, firstErrorLine e)

theorem process_batch_foldl (f : Nat × α → Except String ProcessResult)
    (batch : List (Nat × α)) (n : Nat) (log : List (Nat × String)) :
    batch.foldl (batchStep f) (n, log)
    = (n + (batch.filter (inviteUsedOn f)).length, log ++ batch.filterMap (errorLogOn f)) := by
  induction batch generalizing n log with
  | nil => simp
  | cons d rest ih =>
    simp only [List.foldl_cons]
    cases hd : f d with
    | ok r =>
      cases hr : r.invite_used with
      | true =>
        rw [show batchStep f (n, log) d = (n + 1, log) by simp [batchStep, hd, hr]]
        rw [ih]
        simp [List.filter_cons, List.filterMap_cons, inviteUsedOn, errorLogOn, hd, hr,
          Nat.add_comm, Nat.add_assoc, Nat.add_left_comm]
      | false =>
        rw [show batchStep f (n, log) d = (n, log) by simp [batchStep, hd, hr]]
        rw [ih]
        simp [List.filter_cons, List.filterMap_cons, inviteUsedOn, errorLogOn, hd, hr]
    | error e =>
      rw [show batchStep f (n, log) d = (n, log ++ [(d.1, firstErrorLine e)]) by
        simp [batchStep, hd]]
      rw [ih]
      simp [List.filter_cons, List.filterMap_cons, inviteUsedOn, errorLogOn, hd]

/-- C2: an exception raised while processing one account is caught at the
batch level, logged with that account's index, and never stops the batch:
the error log is exactly the `(index, first error line)` entry of every
raising account, in batch order, and the batch's return value counts
exactly the accounts (raising ones excluded, later ones included) whose
processing returned a result with `invite_used` set. The orchestrator's
aggregate is the sum of these per-batch counts. -/
theorem process_batch_error_isolation (f : Nat × α → Except String ProcessResult)
    (batch : List (Nat × α)) (batches : List (List (Nat × α))) :
    (process_batch f batch).1 = (batch.filter (inviteUsedOn f)).length
    ∧ (process_batch f batch).2 = batch.filterMap (errorLogOn f)
    ∧ (process f batches).sum
        = (batches.map (fun b => (b.filter (inviteUsedOn f)).length)).sum := by
  refine ⟨?_, ?_, ?_⟩
  · rw [process_batch, process_batch_foldl]; simp
  · rw [process_batch, process_batch_foldl]; simp
  · have hb : ∀ b : List (Nat × α),
        (process_batch f b).1 = (b.filter (inviteUsedOn f)).length := by
      intro b; rw [process_batch, process_batch_foldl]; simp
    simp [process, hb]

/-! ## Invite pool: destructive consumption (`main.py`, `InvitesHandler.get_invite`) -/

/-- Embedding of `InvitesHandler.get_invite` (`main.py` lines 37-41): under
the pool lock, return `None` when the queue is empty, otherwise pop and
return the front code. The state is the `self.invites` list; the result is
the returned value paired with the post-call state. -/
def get_invite (pool : List String) : Option String × List String :=
  match pool with
  | [] => (none, [])
  | c :: rest => (some c, rest)

/-- C3 counterexample: the claim as stated quantifies over every pool
state, but nothing prevents the queue from holding the same code string
twice (it is seeded from a text file and extended with codes harvested
from accounts). On the pool `["AAA", "AAA"]`, which is non-empty, two
consecutive `get_invite` calls both return `"AAA"`. -/
theorem get_invite_duplicate_counterexample :
    (["AAA", "AAA"] : List String) ≠ []
    ∧ (get_invite ["AAA", "AAA"]).1 = some "AAA"
    ∧ (get_invite (get_invite ["AAA", "AAA"]).2).1 = some "AAA" :=
  ⟨by decide, rfl, rfl⟩

/-- C3 (amended): on an empty pool `get_invite` returns `None` and leaves
the pool unchanged, without blocking; on a non-empty pool it removes and
returns the front (oldest) code; and provided the pool holds pairwise
distinct codes, two consecutive `get_invite` calls never return the same
code (consumption is destructive). -/
theorem get_invite_spec (pool : List String) :
    (pool = [] → get_invite pool = (none, pool))
    ∧ (∀ c rest, pool = c :: rest → get_invite pool = (some c, rest))
    ∧ (pool.Nodup → ∀ c₁ p₁ c₂ p₂, get_invite pool = (some c₁, p₁) →
        get_invite p₁ = (some c₂, p₂) → c₁ ≠ c₂) := by
  refine ⟨?_, ?_, ?_⟩
  · rintro rfl; rfl
  · rintro c rest rfl; rfl
  · intro hnd c₁ p₁ c₂ p₂ h1 h2
    cases pool with
    | nil => simp [get_invite] at h1
    | cons c rest =>
      simp only [get_invite] at h1
      injection h1 with hc hp
      injection hc with hc
      subst hc
      subst hp
      cases rest with
      | nil => simp [get_invite] at h2
      | cons c2 r2 =>
        simp only [get_invite] at h2
        injection h2 with hc2 hp2
        injection hc2 with hc2
        subst hc2
        have hmem := (List.nodup_cons.mp hnd).1
        intro hEq
        exact hmem (hEq ▸ List.mem_cons_self _ _)

/-- Witness for C3's amended theorem at a concrete pool. -/
theorem get_invite_spec_witness : get_invite ["A", "B"] = (some "A", ["B"]) :=
  (get_invite_spec ["A", "B"]).2.1 "A" ["B"] rfl

/-! ## Transaction confirmation (`account.py`, `Account.tx_verification`) -/

/-- The slice of a transaction receipt the confirmation loop branches on:
`tx_data.get('status')`. The reward-log decoding (`account.py` lines
235-259) runs inside a `try/except: pass` block after the status branch
and cannot change the outcome of the attempt, so it is not part of the
state model. -/
structure Receipt where
  status : Option Nat
deriving DecidableEq

/-- The three terminal outcomes of one confirmation attempt: success
(receipt with status 1), failure (receipt with any other status), pending
(no receipt before the budget runs out). -/
inductive TxOutcome where
  | success
  | failed
  | pending
deriving DecidableEq

/-- Embedding of the polling loop of `tx_verification` (`account.py` lines
225-267) from elapsed time `t`: while `time_passed < 150`, query the
receipt (`poll t = none` models both `TransactionNotFound` and a `None`
receipt), return on a receipt, otherwise advance `time_passed` by the poll
latency of 1 second (the default, used by every call site) and poll again;
once the 150-second budget is exhausted, log the pending warning and
return normally. -/
def txVerifyFrom (poll : Nat → Option Receipt) (t : Nat) : TxOutcome :=
  if _h : t < 150 then
    match poll t with
    | some r => if r.status = some 1 then .success else .failed
    | none => txVerifyFrom poll (t + 1)
  else .pending
termination_by 150 - t
decreasing_by omega

/-- Embedding of `Account.tx_verification` (`account.py` lines 223-267):
the polling loop started at `time_passed = 0`. -/
def tx_verification (poll : Nat → Option Receipt) : TxOutcome :=
  txVerifyFrom poll 0

theorem txVerifyFrom_eq_pending (poll : Nat → Option Receipt) :
    ∀ n t, 150 - t ≤ n → (∀ s, t ≤ s → s < 150 → poll s = none) →
      txVerifyFrom poll t = .pending := by
  intro n
  induction n with
  | zero =>
    intro t ht _
    rw [txVerifyFrom]
    have hnot : ¬ t < 150 := by omega
    simp [hnot]
  | succ n ih =>
    intro t ht h
    rw [txVerifyFrom]
    by_cases hlt : t < 150
    · simp only [hlt, dif_pos]
      rw [h t le_rfl hlt]
      exact ih (t + 1) (by omega) (fun s hs hs' => h s (by omega) hs')
    · simp [hlt]

theorem txVerifyFrom_first_receipt (poll : Nat → Option Receipt) (r : Receipt) :
    ∀ n u t, t - u ≤ n → u ≤ t → t < 150 → poll t = some r →
      (∀ s, u ≤ s → s < t → poll s = none) →
      txVerifyFrom poll u = (if r.status = some 1 then TxOutcome.success else .failed) := by
  intro n
  induction n with
  | zero =>
    intro u t h1 h2 h3 h4 _
    have hu : u = t := by omega
    subst hu
    rw [txVerifyFrom]
    simp [h3, h4]
  | succ n ih =>
    intro u t h1 h2 h3 h4 h5
    by_cases hut : u = t
    · subst hut
      rw [txVerifyFrom]
      simp [h3, h4]
    · have hu150 : u < 150 := by omega
      rw [txVerifyFrom]
      simp only [hu150, dif_pos]
      rw [h5 u le_rfl (by omega)]
      exact ih (u + 1) t (by omega) (by omega) h3 h4 (fun s hs hs' => h5 s (by omega) hs')

theorem txVerifyFrom_unfold_lt (poll : Nat → Option Receipt) (t : Nat) (hlt : t < 150) :
    txVerifyFrom poll t
    = (match poll t with
        | some r => if r.status = some 1 then TxOutcome.success else .failed
        | none => txVerifyFrom poll (t + 1)) := by
  rw [txVerifyFrom]
  simp [hlt]

theorem txVerifyFrom_unfold_ge (poll : Nat → Option Receipt) (t : Nat) (hlt : ¬ t < 150) :
    txVerifyFrom poll t = .pending := by
  rw [txVerifyFrom]
  simp [hlt]

theorem txVerifyFrom_congr (poll₁ poll₂ : Nat → Option Receipt) :
    ∀ n t, 150 - t ≤ n → (∀ s, s < 150 → poll₁ s = poll₂ s) →
      txVerifyFrom poll₁ t = txVerifyFrom poll₂ t := by
  intro n
  induction n with
  | zero =>
    intro t ht _
    have hnot : ¬ t < 150 := by omega
    rw [txVerifyFrom_unfold_ge poll₁ t hnot, txVerifyFrom_unfold_ge poll₂ t hnot]
  | succ n ih =>
    intro t ht h
    by_cases hlt : t < 150
    · rw [txVerifyFrom_unfold_lt poll₁ t hlt, txVerifyFrom_unfold_lt poll₂ t hlt, h t hlt]
      cases poll₂ t with
      | some r => rfl
      | none => exact ih (t + 1) (by omega) h
    · rw [txVerifyFrom_unfold_ge poll₁ t hlt, txVerifyFrom_unfold_ge poll₂ t hlt]

/-- C4: the confirmation attempt polls at the fixed 1-second latency for
at most the 150-second budget (its outcome depends only on the receipts
observable at times `t < 150`); the first available receipt terminates the
attempt, as failure when its status is not 1, with no automatic retry; and
when no receipt appears within the budget it returns normally with the
`pending` outcome, distinct from both success and failure. -/
theorem tx_verification_budget_and_outcomes (poll : Nat → Option Receipt) :
    ((∀ t, t < 150 → poll t = none) → tx_verification poll = .pending)
    ∧ (∀ t r, t < 150 → poll t = some r → (∀ s, s < t → poll s = none) →
        tx_verification poll = if r.status = some 1 then .success else .failed)
    ∧ (∀ poll₂, (∀ s, s < 150 → poll s = poll₂ s) →
        tx_verification poll = tx_verification poll₂)
    ∧ (TxOutcome.pending ≠ .success ∧ TxOutcome.pending ≠ .failed) := by
  refine ⟨?_, ?_, ?_, by decide, by decide⟩
  · intro h
    exact txVerifyFrom_eq_pending poll 150 0 (by omega) (fun s _ hs' => h s hs')
  · intro t r ht hr h
    exact txVerifyFrom_first_receipt poll r t 0 t (by omega) (Nat.zero_le t) ht hr
      (fun s _ hs' => h s hs')
  · intro poll₂ h
    exact txVerifyFrom_congr poll poll₂ 150 0 (by omega) h

/-- Witness for C4: a chain that never produces a receipt yields the
`pending` outcome. -/
theorem tx_verification_budget_witness :
    tx_verification (fun _ => none) = .pending :=
  (tx_verification_budget_and_outcomes (fun _ => none)).1 (fun _ _ => rfl)

/-! ## Transaction build/simulate/sign/send (`account.py`, `Account.build_and_send_tx`) -/

/-- `GAS_PRICE` constant (`account.py` line 22). -/
def GAS_PRICE : Nat := 10024

/-- `GAS_LIMIT` constant (`account.py` line 23). -/
def GAS_LIMIT : Nat := 300000

/-- The transaction dictionary assembled by `build_and_send_tx`: sender
address, freshly fetched nonce, fixed gas price, and the gas limit that is
attached only after a successful simulation. -/
structure Tx where
  fromAddr : String
  nonce : Nat
  gasPrice : Nat
  gas : Option Nat
deriving DecidableEq

/-- The slice of `self.profile` that `build_and_send_tx` inspects:
`profile['contractInfo'].get('linkedAddress')` (`none` models a missing
key, which Python's `==` compares unequal to any address string). -/
structure Profile where
  linkedAddress : Option String
deriving DecidableEq

/-- The account context of one `Account` object as used by
`build_and_send_tx`: the wallet address, the optional bound private key
(`self.private_key`, `None` until `link_wallet_if_needed` ran), and the
current profile. -/
structure AccountCtx where
  address : String
  private_key : Option String
  profile : Profile
deriving DecidableEq

/-- The unsigned transaction built at `account.py` lines 204-208. -/
def built_tx (ctx : AccountCtx) (nonce : Nat) : Tx :=
  { fromAddr := ctx.address, nonce := nonce, gasPrice := GAS_PRICE, gas := none }

/-- Embedding of one attempt of `Account.build_and_send_tx` (`account.py`
lines 200-221; the `@async_retry` wrapper is modelled separately). `nonce`
is the fetched transaction count; `estimateGas` models
`w3.eth.estimate_gas` (gas estimate or raised simulation error);
`signSend` models `sign_transaction` + `send_raw_transaction` (transaction
hash or raised error). The result pairs the returned hash or raised error
with the number of `refresh_profile()` calls the attempt triggered. -/
def build_and_send_tx (ctx : AccountCtx) (nonce : Nat)
    (estimateGas : Tx → Except String Nat)
    (signSend : Tx → Except String String) : Except String String × Nat :=
  match ctx.private_key with
  | none => (.error "No private key specified", 0)
  | some _ =>
    let tx := built_tx ctx nonce
    match estimateGas tx with
    | .error e =>
      (.error ("Tx simulation failed: " ++ e),
        if ctx.profile.linkedAddress = some ctx.address then 1 else 0)
    | .ok _ =>
      match signSend { tx with gas := some GAS_LIMIT } with
      | .error e => (.error e, 0)
      | .ok h => (.ok h, 0)

/-- C5: whenever gas estimation fails inside `build_and_send_tx`, the
attempt returns the `Tx simulation failed` error to its caller, and it
triggers exactly one profile refresh if and only if the profile's on-chain
linked address equals the account's local signer address. -/
theorem build_and_send_tx_sim_failure (ctx : AccountCtx) (nonce : Nat)
    (estimateGas : Tx → Except String Nat) (signSend : Tx → Except String String)
    (key e : String) (hk : ctx.private_key = some key)
    (he : estimateGas (built_tx ctx nonce) = .error e) :
    build_and_send_tx ctx nonce estimateGas signSend
      = (.error ("Tx simulation failed: " ++ e),
          if ctx.profile.linkedAddress = some ctx.address then 1 else 0) := by
  simp [build_and_send_tx, hk, he]

/-- Witness for C5: a linked account whose simulation reverts refreshes
its profile exactly once and surfaces the simulation error. -/
theorem build_and_send_tx_sim_failure_witness :
    build_and_send_tx ⟨"0xA", some "key", ⟨some "0xA"⟩⟩ 7
      (fun _ => .error "revert") (fun _ => .ok "hash")
      = (.error "Tx simulation failed: revert", 1) := by
  have h := build_and_send_tx_sim_failure ⟨"0xA", some "key", ⟨some "0xA"⟩⟩ 7
    (fun _ => .error "revert") (fun _ => .ok "hash") "key" "revert" rfl rfl
  rw [h]
  rfl

/-! ## Retry policy (`utils.async_retry`, not part of `src/`) -/

/-- Modelled from the spec: the designated "do not retry" class of the
Retry Policy (§4.1), which §4.3 and §7 populate with the configuration
error raised for a missing private key ("fatal for the current account,
not retried"). -/
def isConfigError (e : String) : Bool := e = "No private key specified"

/-- Modelled from the spec: the Retry Policy `utils.async_retry` (§4.1;
`utils.py` is not under `src/`). Given an operation and a maximum attempt
count, execute the operation; on any raised failure other than the
designated do-not-retry class, retry after a backoff delay up to the
limit; on final failure propagate the last error. `op k` is the outcome of
the k-th execution; the result is paired with the number of executions
performed. `fuel` counts the retries still allowed. -/
def retryFrom (noRetry : String → Bool) (op : Nat → Except String α) :
    Nat → Nat → Except String α × Nat
  | k, fuel =>
    match op k with
    | .ok a => (.ok a, k + 1)
    | .error e =>
      if noRetry e then (.error e, k + 1)
      else
        match fuel with
        | 0 => (.error e, k + 1)
        | fuel + 1 => retryFrom noRetry op (k + 1) fuel

/-- Modelled from the spec: the Retry Policy applied with an attempt
budget: execution starts at attempt 0 with `attempts - 1` retries left. -/
def async_retry (noRetry : String → Bool) (attempts : Nat)
    (op : Nat → Except String α) : Except String α × Nat :=
  retryFrom noRetry op 0 (attempts - 1)

/-- C6: when no private key is bound to the account context,
`build_and_send_tx` fails with the fatal configuration error
`No private key specified`, and the Retry Policy (with the configuration
error in its do-not-retry class, per §4.1/§7) executes the operation
exactly once and propagates that error — the failure is not retried. -/
theorem build_and_send_tx_no_key_not_retried (ctx : AccountCtx) (nonce : Nat)
    (estimateGas : Tx → Except String Nat) (signSend : Tx → Except String String)
    (attempts : Nat) (h : ctx.private_key = none) :
    (build_and_send_tx ctx nonce estimateGas signSend).1
        = .error "No private key specified"
    ∧ async_retry isConfigError attempts
        (fun _ => (build_and_send_tx ctx nonce estimateGas signSend).1)
      = (.error "No private key specified", 1) := by
  have h1 : build_and_send_tx ctx nonce estimateGas signSend
      = (.error "No private key specified", 0) := by
    simp [build_and_send_tx, h]
  refine ⟨by rw [h1], ?_⟩
  rw [async_retry, retryFrom, h1]
  simp [isConfigError]

/-- Witness for C6: an account context with no bound key. -/
theorem build_and_send_tx_no_key_witness :
    (build_and_send_tx ⟨"0xA", none, ⟨none⟩⟩ 0 (fun _ => .ok 21000)
        (fun _ => .ok "hash")).1 = .error "No private key specified"
    ∧ async_retry isConfigError 3
        (fun _ => (build_and_send_tx ⟨"0xA", none, ⟨none⟩⟩ 0 (fun _ => .ok 21000)
          (fun _ => .ok "hash")).1)
      = (.error "No private key specified", 1) :=
  build_and_send_tx_no_key_not_retried ⟨"0xA", none, ⟨none⟩⟩ 0 (fun _ => .ok 21000)
    (fun _ => .ok "hash") 3 rfl

/-! ## Sign-in invite loop (`main.py`, `process_account` lines 152-171) -/

/-- Python's substring test `pat in s`, used at `main.py` line 166 to
classify an exception as "invite code already used". -/
def containsSub (pat s : String) : Bool :=
  s.toList.tails.any (fun t => pat.toList.isPrefixOf t)

/-- Embedding of the `while True` invite-redemption loop of
`process_account` (`main.py` lines 154-171), entered when sign-in reported
that an invite is needed. State: the shared invite pool. `useCode` models
`well3.use_invite_code` (success or raised exception message);
`autoUpdate` is the `AUTO_UPDATE_INVITES` flag; `refill` models the pool
transformation performed by `invites.update_invites()`. Each iteration
pops a code; on an empty pool it refills once and pops again, raising
`No invite codes left` when still empty; a redemption error containing
`Code not found or already used` discards the code and continues with the
next one; any other redemption error is re-raised. `some (.ok pool)` means
the loop broke with `result.invite_used = True` leaving `pool`;
`some (.error m)` means the exception `m` escaped; `none` means the fuel
bound was reached before the loop exited (the source loop has no built-in
bound). -/
def inviteLoop (useCode : String → Except String Unit) (autoUpdate : Bool)
    (refill : List String → List String) :
    Nat → List String → Option (Except String (List String))
  | 0, _ => none
  | fuel + 1, pool =>
    match get_invite pool with
    | (some inv, pool1) =>
      match useCode inv with
      | .ok _ => some (.ok pool1)
      | .error e =>
        if containsSub "Code not found or already used" e
        then inviteLoop useCode autoUpdate refill fuel pool1
        else some (.error e)
    | (none, pool1) =>
      match get_invite (if autoUpdate then refill pool1 else pool1) with
      | (none, _) => some (.error "No invite codes left")
      | (some inv, pool2) =>
        match useCode inv with
        | .ok _ => some (.ok pool2)
        | .error e =>
          if containsSub "Code not found or already used" e
          then inviteLoop useCode autoUpdate refill fuel pool2
          else some (.error e)

/-- C7: in the sign-in invite loop, (1) a code whose redemption fails as
already used is discarded and the loop moves on to the next code drawn
from the pool — it never surfaces as an error; (2) the fatal
`No invite codes left` error is raised when the pool is empty and one
refill attempt leaves it empty; and (3) conversely, as long as a refill of
an empty pool always yields codes (and redemption errors are not
themselves the literal fatal message), the loop never ends with the fatal
error — it arises exactly from the empty-after-refill situation. -/
theorem invite_loop_fatal_and_retry (useCode : String → Except String Unit)
    (refill : List String → List String) :
    (∀ (fuel : Nat) (c : String) (rest : List String) (e : String)
        (au : Bool), useCode c = .error e →
        containsSub "Code not found or already used" e = true →
        inviteLoop useCode au refill (fuel + 1) (c :: rest)
          = inviteLoop useCode au refill fuel rest)
    ∧ (∀ fuel : Nat, refill [] = [] →
        inviteLoop useCode true refill (fuel + 1) []
          = some (.error "No invite codes left"))
    ∧ ((∀ c e, useCode c = .error e → e ≠ "No invite codes left") →
        refill [] ≠ [] →
        ∀ (fuel : Nat) (pool : List String) (r : Except String (List String)),
          inviteLoop useCode true refill fuel pool = some r →
          r ≠ .error "No invite codes left") := by
  refine ⟨?_, ?_, ?_⟩
  · intro fuel c rest e au huse hcont
    simp [inviteLoop, get_invite, huse, hcont]
  · intro fuel hrefill
    simp [inviteLoop, get_invite, hrefill]
  · intro hmsg hrefill fuel
    induction fuel with
    | zero =>
      intro pool r hr
      have hr' : (none : Option (Except String (List String))) = some r := hr
      exact Option.noConfusion hr'
    | succ fuel ih =>
      intro pool r hr
      cases pool with
      | nil =>
        rw [inviteLoop] at hr
        have hr2 : (match get_invite (refill []) with
            | (none, _) => some (Except.error "No invite codes left")
            | (some inv, pool2) =>
              match useCode inv with
              | .ok _ => some (.ok pool2)
              | .error e =>
                if containsSub "Code not found or already used" e = true
                then inviteLoop useCode true refill fuel pool2
                else some (.error e)) = some r := hr
        clear hr
        cases hpool : refill [] with
        | nil => exact absurd hpool hrefill
        | cons c rest =>
          rw [hpool] at hr2
          simp only [get_invite] at hr2
          cases huse : useCode c with
          | ok _ =>
            rw [huse] at hr2
            injection hr2 with hr2
            subst hr2
            intro hcontra
            cases hcontra
          | error e =>
            rw [huse] at hr2
            have hr' : (if containsSub "Code not found or already used" e = true
                then inviteLoop useCode true refill fuel rest
                else some (Except.error e)) = some r := hr2
            by_cases hcont : containsSub "Code not found or already used" e = true
            · rw [if_pos hcont] at hr'
              exact ih rest r hr'
            · rw [if_neg hcont] at hr'
              injection hr' with hr'
              subst hr'
              intro hcontra
              injection hcontra with hcontra
              exact hmsg c e huse hcontra
      | cons c rest =>
        rw [inviteLoop] at hr
        simp only [get_invite] at hr
        cases huse : useCode c with
        | ok _ =>
          rw [huse] at hr
          injection hr with hr
          subst hr
          intro hcontra
          cases hcontra
        | error e =>
          rw [huse] at hr
          have hr' : (if containsSub "Code not found or already used" e = true
              then inviteLoop useCode true refill fuel rest
              else some (Except.error e)) = some r := hr
          by_cases hcont : containsSub "Code not found or already used" e = true
          · rw [if_pos hcont] at hr'
            exact ih rest r hr'
          · rw [if_neg hcont] at hr'
            injection hr' with hr'
            subst hr'
            intro hcontra
            injection hcontra with hcontra
            exact hmsg c e huse hcontra

/-- Witness for C7 at concrete inputs: with an empty pool and a refill
that yields nothing, the loop raises the fatal error; the already-used
branch is exercised with a pool of two codes. -/
theorem invite_loop_fatal_witness :
    inviteLoop (fun _ => .ok ()) true (fun p => p) (3 + 1) []
      = some (.error "No invite codes left")
    ∧ inviteLoop (fun c => if c = "A" then .error "Code not found or already used" else .ok ())
        true (fun p => p) (1 + 1) ["A", "B"]
      = inviteLoop (fun c => if c = "A" then .error "Code not found or already used" else .ok ())
        true (fun p => p) 1 ["B"] :=
  ⟨(invite_loop_fatal_and_retry (fun _ => .ok ()) (fun p => p)).2.1 3 rfl,
   (invite_loop_fatal_and_retry _ (fun p => p)).1 1 "A" ["B"]
     "Code not found or already used" true rfl (by decide)⟩

/-! ## Invite pool refill (`main.py`, `InvitesHandler.update_invites`) -/

/-- The two shapes of the `AUTO_UPDATE_INVITES_FROM_FIRST_COUNT` config
value (`main.py` lines 51-57): a plain count of addresses to source from,
or a pair `(max_use, first_count)` capping the number of addresses that
may contribute at least one code, with shuffling for fairness. -/
inductive RefillConfig where
  | count (n : Nat)
  | capped (maxUse : Nat) (firstCount : Nat)
deriving DecidableEq

/-- The refill loop of `update_invites` (`main.py` lines 62-77): walk the
enumerated source addresses; `fetch addr` models
`refresh('Updating invites', addr, storage)` returning the refreshed
account's unused invite codes, or `None` when the account is skipped; a
`None` fetch is skipped (`continue`), otherwise the codes extend the pool
and, when a cap is active and the account yielded at least one code, the
cap is decremented; a cap at 0 stops the loop (`break`). The
`MOBILE_PROXY` pacing sleeps are timing effects only. -/
def refillLoop (fetch : String → Option (List String)) :
    List (Nat × String) → Option Nat → List String → List String
  | [], _, pool => pool
  | (_, addr) :: rest, maxUse?, pool =>
    match maxUse? with
    | some 0 => pool
    | _ =>
      match fetch addr with
      | none => refillLoop fetch rest maxUse? pool
      | some codes =>
        refillLoop fetch rest
          (if codes.length > 0 then maxUse?.map (· - 1) else maxUse?)
          (pool ++ codes)

/-- Embedding of `InvitesHandler.update_invites` (`main.py` lines 43-85),
as a transformation of the pool state under the pool lock. If the pool is
already non-empty the call sleeps briefly (a throttling pause, a timing
effect) and returns with the pool untouched; otherwise it sources codes
from a prefix of the address list per the configuration, shuffling the
address order and the final pool in the capped configuration.
`shuffleAddrs` / `shuffleInvites` are the randomness oracles for
`random.shuffle`. The returned flag records whether a refill pass was
performed. -/
def update_invites (shuffleAddrs : List (Nat × String) → List (Nat × String))
    (shuffleInvites : List String → List String)
    (fetch : String → Option (List String)) (cfg : RefillConfig)
    (addresses : List String) (pool : List String) : List String × Bool :=
  if pool ≠ [] then (pool, false)
  else
    match cfg with
    | .capped maxUse firstCount =>
      (shuffleInvites (refillLoop fetch
          (shuffleAddrs (List.enumFrom 1 (addresses.take firstCount)))
          (some maxUse) pool), true)
    | .count n =>
      (refillLoop fetch (List.enumFrom 1 (addresses.take n)) none pool, true)

/-- C8: when the invite queue is non-empty, `update_invites` performs no
refill and returns (after its short throttling pause) with the queue
unchanged — the very same codes in the very same order. -/
theorem update_invites_nonempty_noop
    (shuffleAddrs : List (Nat × String) → List (Nat × String))
    (shuffleInvites : List String → List String)
    (fetch : String → Option (List String)) (cfg : RefillConfig)
    (addresses : List String) (pool : List String) (h : pool ≠ []) :
    update_invites shuffleAddrs shuffleInvites fetch cfg addresses pool
      = (pool, false) := by
  simp [update_invites, h]

/-- Witness for C8 at a concrete non-empty pool. -/
theorem update_invites_nonempty_noop_witness :
    update_invites id id (fun _ => some ["X"]) (.count 2) ["a", "b"] ["C", "D"]
      = (["C", "D"], false) :=
  update_invites_nonempty_noop id id (fun _ => some ["X"]) (.count 2) ["a", "b"]
    ["C", "D"] (by decide)

/-! ## Persistent store snapshot (`storage.py`, `Storage.save` / `Storage.init`) -/

/-- JSON values as needed for one serialized account record: strings,
integers and arrays of strings. -/
inductive JsonVal where
  | str (s : String)
  | num (n : Int)
  | arr (xs : List JsonVal)

/-- Modelled from the spec: the per-account state record
(`models.AccountInfo` is not under `src/`). §3: one entry per wallet
address holding the proxy string, the social-auth token, and the derived
profile fields — experience, level, pending-quest count,
next-claim-eligibility timestamp, owned invite codes, per-rarity insight
counts, and daily/rank claim status. -/
structure AccountInfo where
  address : String
  proxy : String
  twitter_auth_token : String
  exp : Int
  lvl : Int
  pending_quests : Int
  next_breathe_time : String
  invite_codes : List String
  uncommon : Int
  rare : Int
  legendary : Int
  mythical : Int
  daily_insight : String
  insights_to_open : Int
deriving DecidableEq

/-- Modelled from the spec: `AccountInfo.to_dict` (`models.py` is not
under `src/`) — serialize the record as a JSON object with one key per
field (§6: the snapshot file is a single JSON object mapping address to
account-state record). -/
def to_dict (i : AccountInfo) : List (String × JsonVal) :=
  [("address", .str i.address),
   ("proxy", .str i.proxy),
   ("twitter_auth_token", .str i.twitter_auth_token),
   ("exp", .num i.exp),
   ("lvl", .num i.lvl),
   ("pending_quests", .num i.pending_quests),
   ("next_breathe_time", .str i.next_breathe_time),
   ("invite_codes", .arr (i.invite_codes.map .str)),
   ("uncommon", .num i.uncommon),
   ("rare", .num i.rare),
   ("legendary", .num i.legendary),
   ("mythical", .num i.mythical),
   ("daily_insight", .str i.daily_insight),
   ("insights_to_open", .num i.insights_to_open)]

/-- Read a JSON string field. -/
def asStr : Option JsonVal → Option String
  | some (.str s) => some s
  | _ => none

/-- Read a JSON integer field. -/
def asNum : Option JsonVal → Option Int
  | some (.num n) => some n
  | _ => none

/-- Read a JSON array of strings. -/
def strListOfJson : List JsonVal → Option (List String)
  | [] => some []
  | .str s :: rest => (strListOfJson rest).map (s :: ·)
  | _ => none

/-- Read a JSON string-array field. -/
def asStrList : Option JsonVal → Option (List String)
  | some (.arr xs) => strListOfJson xs
  | _ => none

/-- Modelled from the spec: `AccountInfo.from_dict` (`models.py` is not
under `src/`) — rebuild the record from the parsed JSON object by key
lookup, independent of the order the keys appear in. A malformed record
yields `none` (Python would raise while loading). -/
def from_dict (d : List (String × JsonVal)) : Option AccountInfo := do
  let address ← asStr (d.lookup "address")
  let proxy ← asStr (d.lookup "proxy")
  let twitter_auth_token ← asStr (d.lookup "twitter_auth_token")
  let exp ← asNum (d.lookup "exp")
  let lvl ← asNum (d.lookup "lvl")
  let pending_quests ← asNum (d.lookup "pending_quests")
  let next_breathe_time ← asStr (d.lookup "next_breathe_time")
  let invite_codes ← asStrList (d.lookup "invite_codes")
  let uncommon ← asNum (d.lookup "uncommon")
  let rare ← asNum (d.lookup "rare")
  let legendary ← asNum (d.lookup "legendary")
  let mythical ← asNum (d.lookup "mythical")
  let daily_insight ← asStr (d.lookup "daily_insight")
  let insights_to_open ← asNum (d.lookup "insights_to_open")
  pure ⟨address, proxy, twitter_auth_token, exp, lvl, pending_quests,
    next_breathe_time, invite_codes, uncommon, rare, legendary, mythical,
    daily_insight, insights_to_open⟩

namespace Storage

/-- Embedding of `Storage.save` (`storage.py` lines 50-53): serialize the
in-memory address→record map (`{a: i.to_dict() for a, i in
self.data.items()}`) and write it as one JSON object. The file content is
modelled as the ordered association list that `json.dump` writes. -/
def save (data : List (String × AccountInfo)) :
    List (String × List (String × JsonVal)) :=
  data.map (fun p => (p.1, to_dict p.2))

/-- Embedding of `Storage.init` (`storage.py` lines 16-23) on a non-empty
snapshot file: parse the JSON object and convert every record
(`{a: AccountInfo.from_dict(i) for a, i in converted_data.items()}`);
`none` models Python raising on a malformed record. -/
def init : List (String × List (String × JsonVal)) →
    Option (List (String × AccountInfo))
  | [] => some []
  | (a, r) :: rest =>
    match from_dict r with
    | none => none
    | some i => (init rest).map (fun tl => (a, i) :: tl)

end Storage

theorem strListOfJson_map (xs : List String) :
    strListOfJson (xs.map JsonVal.str) = some xs := by
  induction xs with
  | nil => rfl
  | cons s rest ih => simp [strListOfJson, ih]

theorem from_dict_to_dict (i : AccountInfo) : from_dict (to_dict i) = some i := by
  simp [from_dict, to_dict, asStr, asNum, asStrList, List.lookup, strListOfJson_map]

/-- C9: saving the store and initialising a fresh store from the same file
restores the very same address→record mapping: the same addresses, in the
same order, each bound to a semantically equal record. `from_dict` reads
its fields by key lookup, so the result does not depend on the JSON key
order inside each record. -/
theorem storage_save_init_round_trip (data : List (String × AccountInfo)) :
    Storage.init (Storage.save data) = some data := by
  induction data with
  | nil => rfl
  | cons p rest ih =>
    have hsave : Storage.save (p :: rest) = (p.1, to_dict p.2) :: Storage.save rest := by
      simp [Storage.save]
    rw [hsave]
    simp [Storage.init, from_dict_to_dict, ih]

/-! ## Store accessors and deep copies (`storage.py`,
`Storage.get_final_account_info` / `Storage.set_final_account_info`)

Python aliasing is made explicit with a small object heap: a cell index is
an object identity, `Heap.write` is in-place mutation of an object, and
`deepcopy` allocates a fresh cell holding a copy of the value (the whole
`AccountInfo` contents, sub-structures included, since a cell holds the
complete value). The store maps addresses to object references. -/

/-- A heap of Python objects of type `α`. -/
structure Heap (α : Type _) where
  cells : List α

/-- Dereference an object. -/
def Heap.read (h : Heap α) (r : Nat) : Option α := h.cells[r]?

/-- Allocate a fresh object — this is what `deepcopy` does, paired with
copying the source value. -/
def Heap.alloc (h : Heap α) (v : α) : Nat × Heap α :=
  (h.cells.length, ⟨h.cells ++ [v]⟩)

/-- Mutate an object in place. -/
def Heap.write (h : Heap α) (r : Nat) (v : α) : Heap α :=
  ⟨h.cells.set r v⟩

/-- Python dict assignment `self.data[address] = ref`: rebind the key if
present, else append the new binding. -/
def setKey : List (String × Nat) → String → Nat → List (String × Nat)
  | [], k, r => [(k, r)]
  | p :: rest, k, r => if p.1 = k then (k, r) :: rest else p :: setKey rest k r

/-- Embedding of `Storage.get_final_account_info` (`storage.py` lines
25-29) over the heap: look up the stored reference for the address;
`None` when absent; otherwise return a reference to a freshly allocated
deep copy of the stored object. The store map itself is not touched. (The
inner `none` fallback covers a dangling reference, unreachable in
Python.) -/
def get_final_account_info (st : List (String × Nat)) (h : Heap α)
    (addr : String) : Option Nat × Heap α :=
  match st.lookup addr with
  | none => (none, h)
  | some r =>
    match h.read r with
    | none => (none, h)
    | some v =>
      let a := h.alloc v
      (some a.1, a.2)

/-- Embedding of `Storage.set_final_account_info` (`storage.py` lines
31-32): bind the address to a reference to a freshly allocated deep copy
of the argument object. -/
def set_final_account_info (st : List (String × Nat)) (h : Heap α)
    (addr : String) (r : Nat) : List (String × Nat) × Heap α :=
  match h.read r with
  | none => (st, h)
  | some v =>
    let a := h.alloc v
    (setKey st addr a.1, a.2)

theorem lookup_setKey_self (st : List (String × Nat)) (k : String) (r : Nat) :
    (setKey st k r).lookup k = some r := by
  induction st with
  | nil => simp [setKey, List.lookup]
  | cons p rest ih =>
    by_cases hp : p.1 = k
    · simp [setKey, hp, List.lookup]
    · have hk : (k == p.1) = false := beq_eq_false_iff_ne.mpr (fun hh => hp hh.symm)
      simp [setKey, hp, List.lookup, hk, ih]

theorem lookup_setKey_ne (st : List (String × Nat)) (k : String) (r : Nat)
    (a : String) (h : a ≠ k) : (setKey st k r).lookup a = st.lookup a := by
  induction st with
  | nil =>
    have hk : (a == k) = false := beq_eq_false_iff_ne.mpr h
    simp [setKey, List.lookup, hk]
  | cons p rest ih =>
    by_cases hp : p.1 = k
    · have hk : (a == k) = false := beq_eq_false_iff_ne.mpr h
      have hk2 : (a == p.1) = false := beq_eq_false_iff_ne.mpr (hp ▸ h)
      simp [setKey, hp, List.lookup, hk, hk2]
    · cases hap : (a == p.1) with
      | true => simp [setKey, hp, List.lookup, hap]
      | false => simp [setKey, hp, List.lookup, hap, ih]

theorem heap_read_alloc_old (h : Heap α) (v : α) (r : Nat)
    (hr : r < h.cells.length) : (h.alloc v).2.read r = h.read r := by
  simp only [Heap.alloc, Heap.read]
  rw [List.getElem?_append]
  simp [hr]

theorem heap_read_alloc_fresh (h : Heap α) (v : α) :
    (h.alloc v).2.read h.cells.length = some v := by
  simp only [Heap.alloc, Heap.read]
  exact List.getElem?_concat_length h.cells v

theorem heap_read_write_ne (h : Heap α) (r r' : Nat) (w : α) (hne : r ≠ r') :
    (h.write r w).read r' = h.read r' := by
  simp only [Heap.write, Heap.read]
  rw [List.getElem?_set_ne hne]

theorem heap_read_lt_length (h : Heap α) (r : Nat) (v : α)
    (hr : h.read r = some v) : r < h.cells.length :=
  (List.getElem?_eq_some.mp hr).choose

/-- C10: the store's map changes only through explicit `set` calls, and
both accessors hand out deep copies. In detail: (1) `set` on one address
leaves every other address bound to the same reference and leaves every
pre-existing object's contents unchanged; (2) `set` binds the address to a
fresh copy holding the argument's value at call time; (3) mutating the
argument object after `set` returns does not change the stored copy;
(4) `get` returns a reference to a fresh copy, and mutating that copy
leaves every pre-existing object — in particular every object the store
holds — unchanged (`get` does not modify the map at all, as its result
type shows). -/
theorem storage_accessors_deepcopy_frame (st : List (String × Nat))
    (h : Heap α) (addr : String) :
    (∀ (r : Nat) (addr' : String), addr' ≠ addr →
      (set_final_account_info st h addr r).1.lookup addr' = st.lookup addr')
    ∧ (∀ r r', r' < h.cells.length →
        (set_final_account_info st h addr r).2.read r' = h.read r')
    ∧ (∀ r v, h.read r = some v →
        (set_final_account_info st h addr r).1.lookup addr = some h.cells.length
        ∧ (set_final_account_info st h addr r).2.read h.cells.length = some v)
    ∧ (∀ r v w, h.read r = some v →
        ((set_final_account_info st h addr r).2.write r w).read h.cells.length
          = some v)
    ∧ (∀ r v, st.lookup addr = some r → h.read r = some v →
        (get_final_account_info st h addr).1 = some h.cells.length
        ∧ ∀ (w : α) (r' : Nat), r' < h.cells.length →
          ((get_final_account_info st h addr).2.write h.cells.length w).read r'
            = h.read r') := by
  refine ⟨?_, ?_, ?_, ?_, ?_⟩
  · intro r addr' hne
    rw [set_final_account_info]
    cases hr : h.read r with
    | none => rfl
    | some v => simp [lookup_setKey_ne st addr _ addr' hne]
  · intro r r' hlt
    rw [set_final_account_info]
    cases hr : h.read r with
    | none => rfl
    | some v => simp [heap_read_alloc_old h v r' hlt]
  · intro r v hr
    rw [set_final_account_info, hr]
    exact ⟨lookup_setKey_self st addr h.cells.length,
      heap_read_alloc_fresh h v⟩
  · intro r v w hr
    rw [set_final_account_info, hr]
    have hlt : r < h.cells.length := heap_read_lt_length h r v hr
    have hne : r ≠ h.cells.length := Nat.ne_of_lt hlt
    rw [heap_read_write_ne _ r h.cells.length w hne]
    exact heap_read_alloc_fresh h v
  · intro r v hlook hr
    have hget : get_final_account_info st h addr
        = (some h.cells.length, ⟨h.cells ++ [v]⟩) := by
      simp [get_final_account_info, hlook, hr, Heap.alloc]
    rw [hget]
    refine ⟨rfl, ?_⟩
    intro w r' hlt
    have hne : h.cells.length ≠ r' := fun hh => absurd (hh ▸ hlt) (Nat.lt_irrefl _)
    rw [heap_read_write_ne _ h.cells.length r' w hne]
    exact heap_read_alloc_old h v r' hlt

/-- Witness for C10 at a concrete store: two addresses bound to two
objects, setting address `"b"` from a caller-held object. -/
theorem storage_accessors_deepcopy_frame_witness :
    (set_final_account_info [("a", 0), ("b", 1)] (⟨[10, 20, 30]⟩ : Heap Nat)
        "b" 2).1.lookup "a" = some 0
    ∧ (set_final_account_info [("a", 0), ("b", 1)] (⟨[10, 20, 30]⟩ : Heap Nat)
        "b" 2).1.lookup "b" = some 3
    ∧ (set_final_account_info [("a", 0), ("b", 1)] (⟨[10, 20, 30]⟩ : Heap Nat)
        "b" 2).2.read 3 = some 30 := by
  have h := storage_accessors_deepcopy_frame [("a", 0), ("b", 1)]
    (⟨[10, 20, 30]⟩ : Heap Nat) "b"
  refine ⟨h.1 2 "a" (by decide), ?_, ?_⟩
  · exact (h.2.2.1 2 30 rfl).1
  · exact (h.2.2.1 2 30 rfl).2
